import Mathlib

/-!
# Cart Reservation Engine — shallow embedding

A shallow embedding of the cart/wishlist subsystem of the e-commerce
backend (apps `cart` and `catalog`), faithful to `cart/models.py`,
`cart/serializers.py` and `cart/views.py`:

* the database is an explicit `DB` record of rows (products, sizes,
  carts, cart items, wishlists, wishlist items) plus a fresh-id counter
  standing for the auto-increment primary keys;
* each HTTP handler becomes a function `DB → DB × outcome`; a handler
  that answers an error before any ORM write returns the database
  unchanged, mirroring the fact that `serializer.is_valid(raise_exception=True)`
  raises before `save()` runs;
* prices are modelled in minor currency units (`Nat`): the source stores
  a `Decimal` with two places, and the claims about totals only use its
  additive/multiplicative structure;
* the concurrency-sensitive path (`AddToCartSerializer`: `validate` runs
  outside the transaction, `create` runs `select_for_update` and an
  additive `F('quantity') + quantity` update inside it) is additionally
  given a small-step interleaving semantics (`ConcState`, `stepThread`)
  and an action-trace view (`addItemActions`, `updateQuantityActions`)
  recording where stock checks sit relative to lock acquisition.
-/

namespace ECom

/-- `catalog.Product` — the fields the cart engine reads: primary key,
unit price (minor units) and the `is_active` flag. -/
structure Product where
  id : Nat
  price : Nat
  isActive : Bool
  deriving Repr, DecidableEq

/-- `catalog.ProductSize` — a size row of a product; `quantity` is the
available stock for that (product, size). -/
structure ProductSize where
  id : Nat
  productId : Nat
  quantity : Nat
  deriving Repr, DecidableEq

/-- `cart.Cart` — one per user (`OneToOneField`). -/
structure Cart where
  id : Nat
  userId : Nat
  deriving Repr, DecidableEq

/-- `cart.CartItem` — a line item: foreign keys to cart, product and
size, plus a quantity. The source keeps no price on the row. -/
structure CartItem where
  id : Nat
  cartId : Nat
  productId : Nat
  productSizeId : Nat
  quantity : Nat
  deriving Repr, DecidableEq

/-- `cart.Wishlist` — one per user. -/
structure Wishlist where
  id : Nat
  userId : Nat
  deriving Repr, DecidableEq

/-- `cart.WishlistItem` — a product saved to a wishlist; no quantity. -/
structure WishlistItem where
  id : Nat
  wishlistId : Nat
  productId : Nat
  deriving Repr, DecidableEq

/-- The database state seen by the engine. `nextId` models the
auto-increment key generator (every freshly inserted row takes `nextId`
and bumps it). -/
structure DB where
  products : List Product
  sizes : List ProductSize
  carts : List Cart
  cartItems : List CartItem
  wishlists : List Wishlist
  wishlistItems : List WishlistItem
  nextId : Nat
  deriving Repr, DecidableEq

/-- `Product.objects.get(pk=pid)`. -/
def findProduct (db : DB) (pid : Nat) : Option Product :=
  db.products.find? (fun p => p.id == pid)

/-- `ProductSize.objects.get(pk=sid)`. -/
def findSize (db : DB) (sid : Nat) : Option ProductSize :=
  db.sizes.find? (fun s => s.id == sid)

/-- `Cart.objects.get(user=user)`. -/
def findCart (db : DB) (user : Nat) : Option Cart :=
  db.carts.find? (fun c => c.userId == user)

/-- `Wishlist.objects.get(user=user)`. -/
def findWishlist (db : DB) (user : Nat) : Option Wishlist :=
  db.wishlists.find? (fun w => w.userId == user)

/-- The reverse relation `cart.items`. -/
def cartItemsOf (db : DB) (cartId : Nat) : List CartItem :=
  db.cartItems.filter (fun i => i.cartId == cartId)

/-- The reverse relation `wishlist.items`. -/
def wishlistItemsOf (db : DB) (wishlistId : Nat) : List WishlistItem :=
  db.wishlistItems.filter (fun i => i.wishlistId == wishlistId)

/-- `CartItem.objects.get/filter(cart=..., product=..., product_size=...)`:
the lookup by the `unique_together` key. -/
def findCartItemByKey (db : DB) (cartId pid sid : Nat) : Option CartItem :=
  db.cartItems.find?
    (fun i => i.cartId == cartId && i.productId == pid && i.productSizeId == sid)

/-- All rows sharing one `(cart, product, product_size)` key (in a
well-formed database this list has length at most one). -/
def keyRows (db : DB) (cartId pid sid : Nat) : List CartItem :=
  db.cartItems.filter
    (fun i => i.cartId == cartId && i.productId == pid && i.productSizeId == sid)

/-- Stock available for a size id (`product_size.quantity`); 0 if the
row is absent (foreign-key integrity makes it present in real states). -/
def stockOf (db : DB) (sid : Nat) : Nat :=
  match findSize db sid with
  | some s => s.quantity
  | none => 0

/-- Unit price of a product id read from the `Product` row at call time
(`product.price`); 0 if absent. -/
def priceOf (db : DB) (pid : Nat) : Nat :=
  match findProduct db pid with
  | some p => p.price
  | none => 0

/-- `CartItem.subtotal` — `self.product.price * self.quantity`, the
price being read through the foreign key at evaluation time. -/
def subtotal (db : DB) (i : CartItem) : Nat :=
  priceOf db i.productId * i.quantity

/-- `Cart.total` — `sum(item.subtotal for item in self.items...)`. -/
def cartTotalOf (db : DB) (cartId : Nat) : Nat :=
  ((cartItemsOf db cartId).map (fun i => subtotal db i)).sum

/-- The id the user's cart has after `get_or_create`: the existing
cart's id, or the fresh id the new row would take. -/
def userCartId (db : DB) (user : Nat) : Nat :=
  match findCart db user with
  | some c => c.id
  | none => db.nextId

/-- Errors of `AddToCartSerializer` validation, in the source's own
taxonomy. `insufficientStock` carries the two figures the source
interpolates into its message: available stock and quantity already in
the cart. -/
inductive AddError where
  | invalidQuantity
  | productNotFound
  | productInactive
  | sizeNotFound
  | sizeMismatch
  | insufficientStock (available : Nat) (alreadyInCart : Nat)
  deriving Repr, DecidableEq

/-- `existing_qty` as computed in `AddToCartSerializer.validate`: the
quantity already in the user's cart for this (product, size), 0 when the
cart or the row does not exist. -/
def existingQty (user pid sid : Nat) (db : DB) : Nat :=
  match findCart db user with
  | none => 0
  | some cart =>
    match findCartItemByKey db cart.id pid sid with
    | none => 0
    | some item => item.quantity

/-- `AddToCartSerializer` field validation plus `validate`, in source
order: quantity ≥ 1 (`min_value=1`), product exists and is active, size
exists and belongs to the product, and
`existing_qty + quantity ≤ product_size.quantity`. Read-only. -/
def addValidate (user pid sid qty : Nat) (db : DB) : Except AddError Unit :=
  if qty < 1 then .error .invalidQuantity
  else
    match findProduct db pid with
    | none => .error .productNotFound
    | some product =>
      if !product.isActive then .error .productInactive
      else
        match findSize db sid with
        | none => .error .sizeNotFound
        | some psize =>
          if psize.productId ≠ product.id then .error .sizeMismatch
          else
            let existing := existingQty user pid sid db
            if existing + qty > psize.quantity then
              .error (.insufficientStock psize.quantity existing)
            else .ok ()

/-- `AddToCartSerializer.create`: `get_or_create` the cart, then —*
under `select_for_update` — re-read the row for the key and either
increment it additively (`F('quantity') + quantity`) or insert a fresh
row. No stock check happens here. -/
def addCreate (user pid sid qty : Nat) (db : DB) : DB × CartItem :=
  let ensured : DB × Cart :=
    match findCart db user with
    | some c => (db, c)
    | none =>
      let c : Cart := { id := db.nextId, userId := user }
      ({ db with carts := db.carts ++ [c], nextId := db.nextId + 1 }, c)
  let db1 := ensured.1
  let cart := ensured.2
  match findCartItemByKey db1 cart.id pid sid with
  | some item =>
    let item' := { item with quantity := item.quantity + qty }
    ({ db1 with
        cartItems := db1.cartItems.map (fun i => if i.id == item.id then item' else i) },
     item')
  | none =>
    let item : CartItem :=
      { id := db1.nextId, cartId := cart.id, productId := pid,
        productSizeId := sid, quantity := qty }
    ({ db1 with cartItems := db1.cartItems ++ [item], nextId := db1.nextId + 1 },
     item)

/-- Outcome of `AddToCartView.post`. -/
inductive AddOutcome where
  | created (item : CartItem)
  | err (e : AddError)
  deriving Repr, DecidableEq

/-- `AddToCartView.post` — `serializer.is_valid(raise_exception=True)`
then `serializer.save()`; an invalid request is answered before any
write. -/
def addToCart (user pid sid qty : Nat) (db : DB) : DB × AddOutcome :=
  match addValidate user pid sid qty db with
  | .error e => (db, .err e)
  | .ok _ =>
    let r := addCreate user pid sid qty db
    (r.1, .created r.2)

/-- `cart.cart__user == user` resolved through the item's cart foreign
key: does this row belong to the given user's cart? -/
def ownedBy (db : DB) (i : CartItem) (user : Nat) : Bool :=
  match db.carts.find? (fun c => c.id == i.cartId) with
  | some c => c.userId == user
  | none => false

/-- `CartItemDetailView.get_object` —
`CartItem.objects.get(pk=pk, cart__user=user)`, `None` when absent (also
when the row exists but belongs to another user's cart). -/
def getObject (user itemId : Nat) (db : DB) : Option CartItem :=
  db.cartItems.find? (fun i => i.id == itemId && ownedBy db i user)

/-- Outcome of `CartItemDetailView.put`. -/
inductive UpdateOutcome where
  | updated (item : CartItem)
  | notFound
  | invalidQuantity
  | insufficientStock (available : Nat)
  deriving Repr, DecidableEq

/-- HTTP status the view answers for each update outcome (200 for the
read serializer of the updated row, 404 for the missing object, 400 for
a serializer validation error). -/
def updateStatus : UpdateOutcome → Nat
  | .updated _ => 200
  | .notFound => 404
  | .invalidQuantity => 400
  | .insufficientStock _ => 400

/-- `CartItemDetailView.put` — object lookup (404 when absent),
`UpdateCartItemSerializer` validation (`min_value=1`, then
`value ≤ cart_item.product_size.quantity`), then
`cart_item.quantity = value; save()`. No transaction or row lock is
opened on this path. -/
def updateCartItem (user itemId newQty : Nat) (db : DB) : DB × UpdateOutcome :=
  match getObject user itemId db with
  | none => (db, .notFound)
  | some item =>
    if newQty < 1 then (db, .invalidQuantity)
    else
      let avail := stockOf db item.productSizeId
      if newQty > avail then (db, .insufficientStock avail)
      else
        let item' := { item with quantity := newQty }
        ({ db with
            cartItems := db.cartItems.map (fun i => if i.id == item.id then item' else i) },
         .updated item')

/-- Outcome of `CartItemDetailView.delete`. -/
inductive RemoveOutcome where
  | deleted
  | notFound
  deriving Repr, DecidableEq

/-- HTTP status for a delete: 204 on `cart_item.delete()`, 404 when
`get_object` found nothing. -/
def removeStatus : RemoveOutcome → Nat
  | .deleted => 204
  | .notFound => 404

/-- `CartItemDetailView.delete` — object lookup, 404 when absent,
otherwise delete the row and answer 204. -/
def removeCartItem (user itemId : Nat) (db : DB) : DB × RemoveOutcome :=
  match getObject user itemId db with
  | none => (db, .notFound)
  | some item =>
    ({ db with cartItems := db.cartItems.filter (fun i => i.id != item.id) },
     .deleted)

/-- The body `CartView.get` answers: the serializer's `items` (rows of
the user's cart), `cart_total` and `item_count`. -/
structure CartViewBody where
  items : List CartItem
  cartTotal : Nat
  itemCount : Nat
  deriving Repr, DecidableEq

/-- `CartView.get` — a pure read: on `Cart.DoesNotExist` it answers the
empty structure (`items: []`, `cart_total: '0.00'`, `item_count: 0`, not
a 404); otherwise `CartReadSerializer` computes `cart_total` from
`Cart.total` and `item_count` from `obj.items.count()`. The handler
returns the database unchanged: it performs no write. -/
def getCart (user : Nat) (db : DB) : DB × CartViewBody :=
  match findCart db user with
  | none => (db, { items := [], cartTotal := 0, itemCount := 0 })
  | some cart =>
    let items := cartItemsOf db cart.id
    (db,
     { items := items,
       cartTotal := cartTotalOf db cart.id,
       itemCount := items.length })

/-- Errors of `AddToWishlistSerializer` validation. -/
inductive WishError where
  | productNotFound
  | productInactive
  | duplicate
  deriving Repr, DecidableEq

/-- Outcome of `AddToWishlistView.post`. -/
inductive WishAddOutcome where
  | created (item : WishlistItem)
  | err (e : WishError)
  deriving Repr, DecidableEq

/-- `AddToWishlistSerializer.validate_product_id`: product exists and is
active, and the user's wishlist (if any) does not already hold it. -/
def wishValidate (user pid : Nat) (db : DB) : Except WishError Unit :=
  match findProduct db pid with
  | none => .error .productNotFound
  | some product =>
    if !product.isActive then .error .productInactive
    else
      match findWishlist db user with
      | none => .ok ()
      | some w =>
        if db.wishlistItems.any (fun i => i.wishlistId == w.id && i.productId == pid) then
          .error .duplicate
        else .ok ()

/-- `AddToWishlistSerializer.create`: `get_or_create` the wishlist and
insert the item (no lock; validation already rejected duplicates). -/
def wishCreate (user pid : Nat) (db : DB) : DB × WishlistItem :=
  let ensured : DB × Wishlist :=
    match findWishlist db user with
    | some w => (db, w)
    | none =>
      let w : Wishlist := { id := db.nextId, userId := user }
      ({ db with wishlists := db.wishlists ++ [w], nextId := db.nextId + 1 }, w)
  let db1 := ensured.1
  let w := ensured.2
  let item : WishlistItem := { id := db1.nextId, wishlistId := w.id, productId := pid }
  ({ db1 with wishlistItems := db1.wishlistItems ++ [item], nextId := db1.nextId + 1 },
   item)

/-- `AddToWishlistView.post`. -/
def addToWishlist (user pid : Nat) (db : DB) : DB × WishAddOutcome :=
  match wishValidate user pid db with
  | .error e => (db, .err e)
  | .ok _ =>
    let r := wishCreate user pid db
    (r.1, .created r.2)

/-- `WishlistItemDetailView.get_object` —
`WishlistItem.objects.get(pk=pk, wishlist__user=user)`. -/
def getWishObject (user itemId : Nat) (db : DB) : Option WishlistItem :=
  db.wishlistItems.find? (fun i =>
    i.id == itemId &&
    (match db.wishlists.find? (fun w => w.id == i.wishlistId) with
     | some w => w.userId == user
     | none => false))

/-- `WishlistItemDetailView.delete`. -/
def removeWishlistItem (user itemId : Nat) (db : DB) : DB × RemoveOutcome :=
  match getWishObject user itemId db with
  | none => (db, .notFound)
  | some item =>
    ({ db with wishlistItems := db.wishlistItems.filter (fun i => i.id != item.id) },
     .deleted)

/-! ## Operation sequences

One request of the engine's mutating API, and the state reached by a
sequence of them (reads never change the state, so they are omitted
from `Op` without loss). -/

/-- One mutating engine request. -/
inductive Op where
  | add (user pid sid qty : Nat)
  | update (user itemId qty : Nat)
  | remove (user itemId : Nat)
  | wishAdd (user pid : Nat)
  | wishRemove (user itemId : Nat)
  deriving Repr, DecidableEq

/-- The state after serving one request. -/
def applyOp (db : DB) : Op → DB
  | .add user pid sid qty => (addToCart user pid sid qty db).1
  | .update user itemId qty => (updateCartItem user itemId qty db).1
  | .remove user itemId => (removeCartItem user itemId db).1
  | .wishAdd user pid => (addToWishlist user pid db).1
  | .wishRemove user itemId => (removeWishlistItem user itemId db).1

/-- The state after serving a sequence of requests in order. -/
def run (db : DB) (ops : List Op) : DB :=
  ops.foldl applyOp db

/-! ## Lock placement as action traces

The two mutating code paths, read off the source as sequences of
primitive actions. `AddToCartSerializer` checks stock in `validate`
(before `transaction.atomic`), then acquires the row lock with
`select_for_update`, re-reads the row and writes it;
`CartItemDetailView.put` reads the row, checks stock in
`UpdateCartItemSerializer.validate_quantity` and writes, with no
transaction or lock anywhere on the path. -/

/-- A primitive action of a request handler. -/
inductive Action where
  | checkStock
  | acquireLock
  | readItem
  | writeItem
  | releaseLock
  deriving Repr, DecidableEq

/-- The action sequence of the AddItem path
(`AddToCartSerializer.validate` then `.create`). -/
def addItemActions : List Action :=
  [.readItem, .checkStock, .acquireLock, .readItem, .writeItem, .releaseLock]

/-- The action sequence of the UpdateQuantity path
(`CartItemDetailView.put` with `UpdateCartItemSerializer`). -/
def updateQuantityActions : List Action :=
  [.readItem, .checkStock, .writeItem]

/-- Is the per-key lock held just before position `n` of the trace
(more acquisitions than releases so far)? -/
def lockHeldAt (tr : List Action) (n : Nat) : Bool :=
  (tr.take n).count .acquireLock > (tr.take n).count .releaseLock

/-- Every stock check of the trace happens while the lock is held. -/
def stockChecksUnderLock (tr : List Action) : Bool :=
  (List.range tr.length).all
    (fun n => tr.getD n .readItem ≠ .checkStock || lockHeldAt tr n)

/-! ## Interleaving semantics for two concurrent AddItem requests

A faithful small-step rendering of two request handlers racing on the
same (cart, product, size) key: each thread first runs the serializer's
`validate` against the shared state it currently sees (outside any
lock), then acquires the per-key row lock (`select_for_update` blocks
while the other transaction holds it), then runs `create`'s re-read and
additive write, then commits and releases. The scheduler is an explicit
list saying which thread takes its next step. -/

/-- The control point a request handler is at. -/
inductive Phase where
  | start
  | validated (ok : Bool)
  | locked
  | finished (committed : Bool)
  deriving Repr, DecidableEq

/-- Shared state of the two-request interleaving: the database, the
per-key row lock (holder, if any) and each thread's control point. -/
structure ConcState where
  db : DB
  lockOwner : Option Bool
  phase0 : Phase
  phase1 : Phase
  deriving Repr, DecidableEq

/-- One micro-step of thread `which` (both threads run
`AddItem(user, pid, sid, ·)` with their own quantity):
validate against the current shared state, then acquire the lock when
free (blocked attempts change nothing), then perform `create`'s
locked re-read-and-write and release. -/
def stepThread (user pid sid : Nat) (q0 q1 : Nat) (which : Bool)
    (s : ConcState) : ConcState :=
  let q := if which then q1 else q0
  let ph := if which then s.phase1 else s.phase0
  let set := fun (s' : ConcState) (p : Phase) =>
    if which then { s' with phase1 := p } else { s' with phase0 := p }
  match ph with
  | .start =>
    let ok := match addValidate user pid sid q s.db with
      | .ok _ => true
      | .error _ => false
    set s (.validated ok)
  | .validated false => set s (.finished false)
  | .validated true =>
    match s.lockOwner with
    | none => set { s with lockOwner := some which } .locked
    | some _ => s
  | .locked =>
    if s.lockOwner == some which then
      let r := addCreate user pid sid q s.db
      set { s with db := r.1, lockOwner := none } (.finished true)
    else s
  | .finished _ => s

/-- Run a schedule (list of thread choices) from a state. -/
def runSchedule (user pid sid q0 q1 : Nat) (sched : List Bool)
    (s : ConcState) : ConcState :=
  sched.foldl (fun s' which => stepThread user pid sid q0 q1 which s') s

/-! ## Concrete states used by witnesses and counterexamples -/

/-- One active product (id 1, price 1000 minor units) with one size row
(id 2) holding 5 units of stock; no carts or wishlists yet. -/
def sampleDB : DB :=
  { products := [{ id := 1, price := 1000, isActive := true }],
    sizes := [{ id := 2, productId := 1, quantity := 5 }],
    carts := [], cartItems := [], wishlists := [], wishlistItems := [],
    nextId := 3 }

/-- Same catalog as `sampleDB`, with user 7 owning cart 3 that holds one
line item (id 4) of quantity 2 for (product 1, size 2). -/
def rowDB : DB :=
  { products := [{ id := 1, price := 1000, isActive := true }],
    sizes := [{ id := 2, productId := 1, quantity := 5 }],
    carts := [{ id := 3, userId := 7 }],
    cartItems := [{ id := 4, cartId := 3, productId := 1, productSizeId := 2, quantity := 2 }],
    wishlists := [], wishlistItems := [],
    nextId := 5 }

/-- The two-request race of the specification's concrete scenario: both
threads run `AddItem(user 7, product 1, size 2, qty 3)` against
`sampleDB` (stock 5). -/
def raceInit : ConcState :=
  { db := sampleDB, lockOwner := none, phase0 := .start, phase1 := .start }

/-- Both threads validate (against the pre-lock state), then thread 0
locks, commits and releases, then thread 1 locks, commits and
releases — a schedule the serialization layer permits, since each
validation runs before `transaction.atomic` opens. -/
def raceSchedule : List Bool := [false, true, false, false, true, true]

/-- The state after running the race schedule. -/
def raceFinal : ConcState := runSchedule 7 1 2 3 3 raceSchedule raceInit

/-! ## Structural invariants of the store

`unique_together = [['cart', 'product', 'product_size']]` on `CartItem`
and `unique_together = [['wishlist', 'product']]` on `WishlistItem`,
together with primary-key/foreign-key soundness of the id counter and
the `OneToOneField` uniqueness of cart/wishlist per user. -/

/-- The `unique_together` key of a cart item row. -/
def itemKey (i : CartItem) : Nat × Nat × Nat :=
  (i.cartId, i.productId, i.productSizeId)

/-- The `unique_together` key of a wishlist item row. -/
def wishKey (i : WishlistItem) : Nat × Nat :=
  (i.wishlistId, i.productId)

/-- Soundness of a database state: primary keys are unique and below the
id counter, foreign keys point below the counter, each user has at most
one cart and one wishlist, and both `unique_together` constraints hold. -/
def Inv (db : DB) : Prop :=
  (db.cartItems.map CartItem.id).Nodup ∧
  (db.cartItems.map itemKey).Nodup ∧
  (∀ i ∈ db.cartItems, i.id < db.nextId ∧ i.cartId < db.nextId) ∧
  (db.carts.map Cart.userId).Nodup ∧
  (∀ c ∈ db.carts, c.id < db.nextId) ∧
  (db.wishlistItems.map WishlistItem.id).Nodup ∧
  (db.wishlistItems.map wishKey).Nodup ∧
  (∀ i ∈ db.wishlistItems, i.id < db.nextId ∧ i.wishlistId < db.nextId) ∧
  (db.wishlists.map Wishlist.userId).Nodup ∧
  (∀ w ∈ db.wishlists, w.id < db.nextId)

/-! ## Helper lemmas -/

/-- Replacing every entry that carries a given id by one fixed new entry
that itself satisfies the search predicate keeps `find?` successful and
makes it return the new entry. -/
theorem find?_map_replace {l : List CartItem} {p : CartItem → Bool}
    {item item' : CartItem}
    (hfind : l.find? p = some item)
    (hp' : p item' = true) :
    (l.map (fun i => if i.id == item.id then item' else i)).find? p = some item' := by
  induction l with
  | nil => simp at hfind
  | cons a t ih =>
    by_cases ha : a.id = item.id
    · rw [List.map_cons,
        show (if a.id == item.id then item' else a) = item' by simp [ha]]
      exact List.find?_cons_of_pos _ hp'
    · cases hpa : p a with
      | true =>
        rw [List.find?_cons_of_pos _ hpa] at hfind
        exact absurd (by rw [Option.some_inj.mp hfind]) ha
      | false =>
        rw [List.find?_cons_of_neg _ (by simp [hpa])] at hfind
        rw [List.map_cons,
          show (if a.id == item.id then item' else a) = a by simp [ha],
          List.find?_cons_of_neg _ (by simp [hpa])]
        exact ih hfind

/-- A replacement keyed on an id that occurs nowhere in the list is the
identity. -/
theorem map_replace_of_ne {l : List CartItem} {idv : Nat} {b : CartItem}
    (h : ∀ i ∈ l, i.id ≠ idv) :
    l.map (fun i => if i.id == idv then b else i) = l :=
  (List.map_congr_left (fun i hi => by simp [h i hi])).trans (List.map_id l)

/-- Appending one entry whose projection clashes with no existing entry
keeps the projected list duplicate-free. -/
theorem nodup_map_append_single {α β : Type} (f : α → β) {l : List α} {a : α}
    (hnd : (l.map f).Nodup) (hnot : ∀ x ∈ l, f x ≠ f a) :
    ((l ++ [a]).map f).Nodup := by
  rw [List.map_append]
  refine List.Nodup.append hnd (by simp) ?_
  intro y hy hy'
  rcases List.mem_map.mp hy with ⟨x, hx, rfl⟩
  simp only [List.map_cons, List.map_nil, List.mem_singleton] at hy'
  exact hnot x hx hy'

/-- Filtering preserves duplicate-freeness of a projected list. -/
theorem nodup_map_filter {α β : Type} (f : α → β) (q : α → Bool) {l : List α}
    (hnd : (l.map f).Nodup) : ((l.filter q).map f).Nodup :=
  List.Nodup.sublist (List.Sublist.map f (List.filter_sublist l)) hnd

/-- Replacing, keyed on an id unique in the list, one entry by another
entry with the same id and the same `unique_together` key leaves both
projected lists (ids and keys) unchanged. -/
theorem maps_after_replace {l : List CartItem} {item : CartItem} (item' : CartItem)
    (hnd : (l.map CartItem.id).Nodup) (hmem : item ∈ l)
    (hid : item'.id = item.id) (hkey : itemKey item' = itemKey item) :
    ((l.map (fun i => if i.id == item.id then item' else i)).map CartItem.id
        = l.map CartItem.id) ∧
    ((l.map (fun i => if i.id == item.id then item' else i)).map itemKey
        = l.map itemKey) := by
  constructor
  · rw [List.map_map]
    apply List.map_congr_left
    intro i hi
    by_cases h : i.id = item.id
    · simp [Function.comp, h, hid]
    · simp [Function.comp, h]
  · rw [List.map_map]
    apply List.map_congr_left
    intro i hi
    by_cases h : i.id = item.id
    · have heq : i = item := List.inj_on_of_nodup_map hnd hi hmem h
      subst heq
      simp [Function.comp, hkey]
    · simp [Function.comp, h]

/-- `create` when the user has no cart yet but the database (unsoundly)
already holds a row keyed to the id the new cart takes: that row is
incremented. Unreachable from sound states, but it characterizes the
remaining branch of the source's `create`. -/
theorem addCreate_new_cart_increment {user pid sid qty : Nat} {db : DB}
    {item : CartItem}
    (hc : findCart db user = none)
    (hi : findCartItemByKey db db.nextId pid sid = some item) :
    addCreate user pid sid qty db
      = ({ db with carts := db.carts ++ [{ id := db.nextId, userId := user }], cartItems := db.cartItems.map (fun i => if i.id == item.id then { item with quantity := item.quantity + qty } else i), nextId := db.nextId + 1 },
         { item with quantity := item.quantity + qty }) := by
  have hi' : db.cartItems.find?
      (fun i => i.cartId == db.nextId && i.productId == pid && i.productSizeId == sid)
      = some item := hi
  unfold addCreate
  rw [hc]
  simp [findCartItemByKey, hi']

end ECom

namespace ECom

/-- Claim C1 — the code, run at the specification's own concrete
scenario (stock 5, two concurrent `AddItem(user 7, product 1, size 2, 3)`
requests, both validations scheduled before either commit), ends with
both requests committed and a single line item of quantity 6 against an
available stock of 5: the final committed quantity exceeds A, because
the stock validation runs only before the row lock is taken (no stock
check of the AddItem action trace happens while the lock is held). -/
theorem C1_precheck_race_oversells :
    stockOf raceFinal.db 2 = 5 ∧
    (keyRows raceFinal.db 3 1 2).map CartItem.quantity = [6] ∧
    stockOf raceFinal.db 2 <
      ((keyRows raceFinal.db 3 1 2).map CartItem.quantity).sum ∧
    raceFinal.phase0 = Phase.finished true ∧
    raceFinal.phase1 = Phase.finished true ∧
    stockChecksUnderLock addItemActions = false := by decide

/-- Claim C2 (counterexample) — removing a cart item id that does not
exist for the user is answered with `notFound` and HTTP status 404, an
error response, not success: the claim's "removal of a non-existent item
returns success" fails at user 7, item 99, on `sampleDB`. -/
theorem C2_remove_absent_is_404 :
    getObject 7 99 sampleDB = none ∧
    (removeCartItem 7 99 sampleDB).2 = RemoveOutcome.notFound ∧
    removeStatus (removeCartItem 7 99 sampleDB).2 = 404 ∧
    (removeCartItem 7 99 sampleDB).2 ≠ RemoveOutcome.deleted := by decide

/-- Claim C2 (amended) — removing a non-existent or already-removed item
answers `notFound` (HTTP 404) rather than success, and performs no
observable mutation; in particular a second removal of the same item id
always answers `notFound` and leaves the state of the first removal
entirely unchanged. -/
theorem C2_remove_idempotent_as_not_found (user itemId : Nat) (db : DB) :
    (getObject user itemId db = none →
      removeCartItem user itemId db = (db, RemoveOutcome.notFound)) ∧
    removeCartItem user itemId (removeCartItem user itemId db).1
      = ((removeCartItem user itemId db).1, RemoveOutcome.notFound) := by
  constructor
  · intro h
    simp [removeCartItem, h]
  · cases h : getObject user itemId db with
    | none => simp [removeCartItem, h]
    | some item =>
      have hpred := List.find?_some h
      have hid : item.id = itemId := by
        simp only [Bool.and_eq_true, beq_iff_eq] at hpred
        exact hpred.1
      have hnone :
          getObject user itemId
            { db with cartItems := db.cartItems.filter (fun i => i.id != item.id) }
            = none := by
        apply List.find?_eq_none.mpr
        intro x hx
        have hxne : x.id ≠ item.id := by
          have := (List.mem_filter.mp hx).2
          simpa using this
        simp [hid ▸ hxne]
      simp [removeCartItem, h, hnone]

/-- Claim C2 (witness for the amended theorem): user 7 has no item 99 in
`sampleDB`, and the removal answers `notFound` without mutation. -/
theorem C2_remove_witness :
    getObject 7 99 sampleDB = none ∧
    removeCartItem 7 99 sampleDB = (sampleDB, RemoveOutcome.notFound) :=
  ⟨by decide, (C2_remove_idempotent_as_not_found 7 99 sampleDB).1 (by decide)⟩

/-- `AddToCartSerializer` validation, under the preconditions of a
well-formed request (active product, matching size, quantity ≥ 1),
reduces to the stock gate: it fails with `insufficientStock` — carrying
the available and the already-held figures — exactly when the requested
total exceeds the available stock, and succeeds otherwise. -/
theorem addValidate_spec (user : Nat) {pid sid qty : Nat} {db : DB}
    {p : Product} {s : ProductSize}
    (hp : findProduct db pid = some p) (hact : p.isActive = true)
    (hs : findSize db sid = some s) (hsp : s.productId = pid)
    (hq : 1 ≤ qty) :
    addValidate user pid sid qty db =
      if s.quantity < existingQty user pid sid db + qty then
        .error (.insufficientStock s.quantity (existingQty user pid sid db))
      else .ok () := by
  have hp' : db.products.find? (fun x => x.id == pid) = some p := hp
  have hpid : p.id = pid := by
    have := List.find?_some hp'
    simpa using this
  unfold addValidate
  rw [if_neg (by omega), hp, hs]
  simp [hact, hsp, hpid]

/-- When the user's cart holds no row for the key yet, the cart item
lookup of `validate` reports an existing quantity of 0. -/
theorem existingQty_of_key_none {user pid sid : Nat} {db : DB}
    (h : findCartItemByKey db (userCartId db user) pid sid = none) :
    existingQty user pid sid db = 0 := by
  unfold existingQty
  cases hc : findCart db user with
  | none => rfl
  | some c =>
    have hcid : userCartId db user = c.id := by
      unfold userCartId
      rw [hc]
    rw [hcid] at h
    simp [h]

/-- `create` when the cart exists and the key is new: one fresh row is
appended, carrying the requested quantity. -/
theorem addCreate_insert_existing_cart {user pid sid qty : Nat} {db : DB} {c : Cart}
    (hc : findCart db user = some c)
    (hni : findCartItemByKey db c.id pid sid = none) :
    addCreate user pid sid qty db
      = ({ db with cartItems := db.cartItems ++ [{ id := db.nextId, cartId := c.id, productId := pid, productSizeId := sid, quantity := qty }], nextId := db.nextId + 1 },
         { id := db.nextId, cartId := c.id, productId := pid, productSizeId := sid, quantity := qty }) := by
  unfold addCreate
  rw [hc]
  simp [hni]

/-- `create` when the user has no cart yet: the cart is lazily created,
then one fresh row is appended. -/
theorem addCreate_insert_new_cart {user pid sid qty : Nat} {db : DB}
    (hc : findCart db user = none)
    (hni : findCartItemByKey db db.nextId pid sid = none) :
    addCreate user pid sid qty db
      = ({ db with carts := db.carts ++ [{ id := db.nextId, userId := user }], cartItems := db.cartItems ++ [{ id := db.nextId + 1, cartId := db.nextId, productId := pid, productSizeId := sid, quantity := qty }], nextId := db.nextId + 2 },
         { id := db.nextId + 1, cartId := db.nextId, productId := pid, productSizeId := sid, quantity := qty }) := by
  have hni' : db.cartItems.find?
      (fun i => i.cartId == db.nextId && i.productId == pid && i.productSizeId == sid)
      = none := hni
  unfold addCreate
  rw [hc]
  simp [findCartItemByKey, hni']

/-- `create` when the cart exists and already holds a row for the key:
that row's quantity is incremented additively (`F('quantity') + qty` on
the freshly locked row), no new row appears. -/
theorem addCreate_increment {user pid sid qty : Nat} {db : DB} {c : Cart}
    {item : CartItem}
    (hc : findCart db user = some c)
    (hi : findCartItemByKey db c.id pid sid = some item) :
    addCreate user pid sid qty db
      = ({ db with cartItems := db.cartItems.map (fun i => if i.id == item.id then { item with quantity := item.quantity + qty } else i) },
         { item with quantity := item.quantity + qty }) := by
  unfold addCreate
  rw [hc]
  simp [hi]

/-- `AddToCartView.post` when validation passes is exactly `create`. -/
theorem addToCart_of_valid {user pid sid qty : Nat} {db : DB}
    (hv : addValidate user pid sid qty db = .ok ()) :
    addToCart user pid sid qty db
      = ((addCreate user pid sid qty db).1, .created (addCreate user pid sid qty db).2) := by
  unfold addToCart
  rw [hv]

/-- Claim C4 — with the request well-formed (product active, size of the
product, quantity ≥ 1), AddItem fails exactly when
`existing_qty + requested_qty` exceeds the available stock; the only
possible failure is `insufficientStock` carrying the available quantity
and the quantity already held; and on that failure the database is
entirely unchanged. -/
theorem C4_insufficient_stock_gate (user pid sid qty : Nat) (db : DB)
    (p : Product) (s : ProductSize)
    (hp : findProduct db pid = some p) (hact : p.isActive = true)
    (hs : findSize db sid = some s) (hsp : s.productId = pid)
    (hq : 1 ≤ qty) :
    ((addToCart user pid sid qty db).2
        = AddOutcome.err (.insufficientStock s.quantity (existingQty user pid sid db))
      ↔ s.quantity < existingQty user pid sid db + qty) ∧
    (∀ e, (addToCart user pid sid qty db).2 = AddOutcome.err e →
      e = .insufficientStock s.quantity (existingQty user pid sid db)) ∧
    (s.quantity < existingQty user pid sid db + qty →
      (addToCart user pid sid qty db).1 = db) := by
  have hv := addValidate_spec user hp hact hs hsp hq
  by_cases hlt : s.quantity < existingQty user pid sid db + qty
  · rw [if_pos hlt] at hv
    simp [addToCart, hv, hlt]
  · rw [if_neg hlt] at hv
    simp [addToCart, hv, hlt]

/-- Claim C4 (witness): on `rowDB` (stock 5, already 2 in user 7's
cart) a request for 4 more fails with `insufficientStock 5 2` and
mutates nothing. -/
theorem C4_insufficient_stock_witness :
    (addToCart 7 1 2 4 rowDB).2 = AddOutcome.err (.insufficientStock 5 2) ∧
    (addToCart 7 1 2 4 rowDB).1 = rowDB := by
  have h := C4_insufficient_stock_gate 7 1 2 4 rowDB
    { id := 1, price := 1000, isActive := true }
    { id := 2, productId := 1, quantity := 5 }
    (by decide) (by decide) (by decide) (by decide) (by decide)
  exact ⟨h.1.mpr (by decide), h.2.2 (by decide)⟩

/-- A second AddItem on a state whose cart already holds a row for the
key: validation sees the existing quantity, passes when the combined
total is within stock, and `create` increments the row additively. -/
theorem addToCart_second_increment {user pid sid q2 : Nat} {d1 : DB} {c : Cart}
    {p : Product} {s : ProductSize} {i1 : CartItem}
    (hc1 : findCart d1 user = some c)
    (hp1 : findProduct d1 pid = some p) (hact : p.isActive = true)
    (hs1 : findSize d1 sid = some s) (hsp : s.productId = pid)
    (hq2 : 1 ≤ q2)
    (hfind1 : findCartItemByKey d1 c.id pid sid = some i1)
    (hle : i1.quantity + q2 ≤ s.quantity) :
    addToCart user pid sid q2 d1
      = ({ d1 with cartItems := d1.cartItems.map (fun i => if i.id == i1.id then { i1 with quantity := i1.quantity + q2 } else i) },
         .created { i1 with quantity := i1.quantity + q2 }) := by
  have hex1 : existingQty user pid sid d1 = i1.quantity := by
    unfold existingQty
    rw [hc1]
    simp [hfind1]
  have hv2 : addValidate user pid sid q2 d1 = .ok () := by
    rw [addValidate_spec user hp1 hact hs1 hsp hq2, hex1, if_neg (by omega)]
  rw [addToCart_of_valid hv2, @addCreate_increment user pid sid q2 d1 c i1 hc1 hfind1]

/-- Claim C3 — starting from a state whose (fresh-id sound) database
holds no row yet for the key (user's cart, product, size), executing
`AddItem(user, product, size, q1)` and then `AddItem(user, product,
size, q2)` with `q1 + q2` within the available stock succeeds twice and
leaves exactly one CartItem row for the key, whose quantity is
`q1 + q2`: the merge is additive, never a duplicate row and never a
replacement. -/
theorem C3_add_twice_merges (user pid sid q1 q2 : Nat) (db : DB)
    (p : Product) (s : ProductSize)
    (hp : findProduct db pid = some p) (hact : p.isActive = true)
    (hs : findSize db sid = some s) (hsp : s.productId = pid)
    (hq1 : 1 ≤ q1) (hq2 : 1 ≤ q2) (hsum : q1 + q2 ≤ s.quantity)
    (hkey : keyRows db (userCartId db user) pid sid = [])
    (hfresh : ∀ i ∈ db.cartItems, i.id < db.nextId) :
    ∃ item1 item2,
      (addToCart user pid sid q1 db).2 = AddOutcome.created item1 ∧
      (addToCart user pid sid q2 (addToCart user pid sid q1 db).1).2
          = AddOutcome.created item2 ∧
      keyRows (addToCart user pid sid q2 (addToCart user pid sid q1 db).1).1
          (userCartId db user) pid sid = [item2] ∧
      item2.quantity = q1 + q2 ∧ item2.productId = pid ∧ item2.productSizeId = sid := by
  have hkeyF : db.cartItems.filter
      (fun i => i.cartId == userCartId db user && i.productId == pid && i.productSizeId == sid)
      = [] := hkey
  have hfindN : findCartItemByKey db (userCartId db user) pid sid = none := by
    apply List.find?_eq_none.mpr
    intro x hx
    exact List.filter_eq_nil_iff.mp hkeyF x hx
  have hex0 : existingQty user pid sid db = 0 := existingQty_of_key_none hfindN
  have hv1 : addValidate user pid sid q1 db = .ok () := by
    rw [addValidate_spec user hp hact hs hsp hq1, hex0, if_neg (by omega)]
  cases hc : findCart db user with
  | some c =>
    have hcid : userCartId db user = c.id := by
      unfold userCartId
      rw [hc]
    rw [hcid] at hkeyF hfindN ⊢
    have hfindN' : db.cartItems.find?
        (fun i => i.cartId == c.id && i.productId == pid && i.productSizeId == sid)
        = none := hfindN
    have h1 := @addCreate_insert_existing_cart user pid sid q1 db c hc hfindN
    rw [addToCart_of_valid hv1, h1]
    have hc1 : findCart ({ db with cartItems := db.cartItems ++ [({ id := db.nextId, cartId := c.id, productId := pid, productSizeId := sid, quantity := q1 } : CartItem)], nextId := db.nextId + 1 } : DB) user = some c := hc
    have hp1 : findProduct ({ db with cartItems := db.cartItems ++ [({ id := db.nextId, cartId := c.id, productId := pid, productSizeId := sid, quantity := q1 } : CartItem)], nextId := db.nextId + 1 } : DB) pid = some p := hp
    have hs1 : findSize ({ db with cartItems := db.cartItems ++ [({ id := db.nextId, cartId := c.id, productId := pid, productSizeId := sid, quantity := q1 } : CartItem)], nextId := db.nextId + 1 } : DB) sid = some s := hs
    have hfind1 : findCartItemByKey ({ db with cartItems := db.cartItems ++ [({ id := db.nextId, cartId := c.id, productId := pid, productSizeId := sid, quantity := q1 } : CartItem)], nextId := db.nextId + 1 } : DB) c.id pid sid
        = some ({ id := db.nextId, cartId := c.id, productId := pid, productSizeId := sid, quantity := q1 } : CartItem) := by
      show (db.cartItems ++ [({ id := db.nextId, cartId := c.id, productId := pid, productSizeId := sid, quantity := q1 } : CartItem)]).find?
          (fun i => i.cartId == c.id && i.productId == pid && i.productSizeId == sid)
        = some ({ id := db.nextId, cartId := c.id, productId := pid, productSizeId := sid, quantity := q1 } : CartItem)
      rw [List.find?_append, hfindN']
      simp
    have h2 := addToCart_second_increment hc1 hp1 hact hs1 hsp hq2 hfind1 hsum
    rw [h2]
    have hmap : (db.cartItems ++ [({ id := db.nextId, cartId := c.id, productId := pid, productSizeId := sid, quantity := q1 } : CartItem)]).map
        (fun i => if i.id == db.nextId then ({ id := db.nextId, cartId := c.id, productId := pid, productSizeId := sid, quantity := q1 + q2 } : CartItem) else i)
        = db.cartItems ++ [({ id := db.nextId, cartId := c.id, productId := pid, productSizeId := sid, quantity := q1 + q2 } : CartItem)] := by
      rw [List.map_append]
      rw [map_replace_of_ne (fun i hi => Nat.ne_of_lt (hfresh i hi))]
      simp
    refine ⟨_, _, rfl, rfl, ?_, rfl, rfl, rfl⟩
    unfold keyRows
    show ((db.cartItems ++ [({ id := db.nextId, cartId := c.id, productId := pid, productSizeId := sid, quantity := q1 } : CartItem)]).map
        (fun i => if i.id == db.nextId then ({ id := db.nextId, cartId := c.id, productId := pid, productSizeId := sid, quantity := q1 + q2 } : CartItem) else i)).filter
        (fun i => i.cartId == c.id && i.productId == pid && i.productSizeId == sid)
      = [({ id := db.nextId, cartId := c.id, productId := pid, productSizeId := sid, quantity := q1 + q2 } : CartItem)]
    rw [hmap, List.filter_append, hkeyF]
    simp
  | none =>
    have hcid : userCartId db user = db.nextId := by
      unfold userCartId
      rw [hc]
    rw [hcid] at hkeyF hfindN ⊢
    have hfindN' : db.cartItems.find?
        (fun i => i.cartId == db.nextId && i.productId == pid && i.productSizeId == sid)
        = none := hfindN
    have hcN : db.carts.find? (fun x => x.userId == user) = none := hc
    have h1 := @addCreate_insert_new_cart user pid sid q1 db hc hfindN
    rw [addToCart_of_valid hv1, h1]
    have hc1 : findCart ({ db with carts := db.carts ++ [({ id := db.nextId, userId := user } : Cart)], cartItems := db.cartItems ++ [({ id := db.nextId + 1, cartId := db.nextId, productId := pid, productSizeId := sid, quantity := q1 } : CartItem)], nextId := db.nextId + 2 } : DB) user
        = some ({ id := db.nextId, userId := user } : Cart) := by
      show (db.carts ++ [({ id := db.nextId, userId := user } : Cart)]).find? (fun x => x.userId == user)
        = some ({ id := db.nextId, userId := user } : Cart)
      rw [List.find?_append, hcN]
      simp
    have hp1 : findProduct ({ db with carts := db.carts ++ [({ id := db.nextId, userId := user } : Cart)], cartItems := db.cartItems ++ [({ id := db.nextId + 1, cartId := db.nextId, productId := pid, productSizeId := sid, quantity := q1 } : CartItem)], nextId := db.nextId + 2 } : DB) pid = some p := hp
    have hs1 : findSize ({ db with carts := db.carts ++ [({ id := db.nextId, userId := user } : Cart)], cartItems := db.cartItems ++ [({ id := db.nextId + 1, cartId := db.nextId, productId := pid, productSizeId := sid, quantity := q1 } : CartItem)], nextId := db.nextId + 2 } : DB) sid = some s := hs
    have hfind1 : findCartItemByKey ({ db with carts := db.carts ++ [({ id := db.nextId, userId := user } : Cart)], cartItems := db.cartItems ++ [({ id := db.nextId + 1, cartId := db.nextId, productId := pid, productSizeId := sid, quantity := q1 } : CartItem)], nextId := db.nextId + 2 } : DB) db.nextId pid sid
        = some ({ id := db.nextId + 1, cartId := db.nextId, productId := pid, productSizeId := sid, quantity := q1 } : CartItem) := by
      show (db.cartItems ++ [({ id := db.nextId + 1, cartId := db.nextId, productId := pid, productSizeId := sid, quantity := q1 } : CartItem)]).find?
          (fun i => i.cartId == db.nextId && i.productId == pid && i.productSizeId == sid)
        = some ({ id := db.nextId + 1, cartId := db.nextId, productId := pid, productSizeId := sid, quantity := q1 } : CartItem)
      rw [List.find?_append, hfindN']
      simp
    have h2 := addToCart_second_increment hc1 hp1 hact hs1 hsp hq2 hfind1 hsum
    rw [h2]
    have hmap : (db.cartItems ++ [({ id := db.nextId + 1, cartId := db.nextId, productId := pid, productSizeId := sid, quantity := q1 } : CartItem)]).map
        (fun i => if i.id == db.nextId + 1 then ({ id := db.nextId + 1, cartId := db.nextId, productId := pid, productSizeId := sid, quantity := q1 + q2 } : CartItem) else i)
        = db.cartItems ++ [({ id := db.nextId + 1, cartId := db.nextId, productId := pid, productSizeId := sid, quantity := q1 + q2 } : CartItem)] := by
      rw [List.map_append]
      rw [map_replace_of_ne (fun i hi => by have := hfresh i hi; omega)]
      simp
    refine ⟨_, _, rfl, rfl, ?_, rfl, rfl, rfl⟩
    unfold keyRows
    show ((db.cartItems ++ [({ id := db.nextId + 1, cartId := db.nextId, productId := pid, productSizeId := sid, quantity := q1 } : CartItem)]).map
        (fun i => if i.id == db.nextId + 1 then ({ id := db.nextId + 1, cartId := db.nextId, productId := pid, productSizeId := sid, quantity := q1 + q2 } : CartItem) else i)).filter
        (fun i => i.cartId == db.nextId && i.productId == pid && i.productSizeId == sid)
      = [({ id := db.nextId + 1, cartId := db.nextId, productId := pid, productSizeId := sid, quantity := q1 + q2 } : CartItem)]
    rw [hmap, List.filter_append, hkeyF]
    simp

/-- Claim C3 (witness): the specification's concrete scenario — stock 5,
`AddItem(user 7, product 1, size 2, 2)` twice from the empty state —
ends with exactly one row of quantity 4. -/
theorem C3_add_twice_witness :
    ∃ item1 item2,
      (addToCart 7 1 2 2 sampleDB).2 = AddOutcome.created item1 ∧
      (addToCart 7 1 2 2 (addToCart 7 1 2 2 sampleDB).1).2
          = AddOutcome.created item2 ∧
      keyRows (addToCart 7 1 2 2 (addToCart 7 1 2 2 sampleDB).1).1
          (userCartId sampleDB 7) 1 2 = [item2] ∧
      item2.quantity = 2 + 2 ∧ item2.productId = 1 ∧ item2.productSizeId = 2 :=
  C3_add_twice_merges 7 1 2 2 2 sampleDB
    { id := 1, price := 1000, isActive := true }
    { id := 2, productId := 1, quantity := 5 }
    (by decide) (by decide) (by decide) (by decide) (by decide) (by decide)
    (by decide) (by decide) (by decide)

/-- Claim C5 (counterexample for the lock clause) — the UpdateQuantity
code path performs its stock check without ever acquiring the per-item
lock: its action trace contains no lock acquisition at all, so the check
is not performed "under the same per-item lock as AddItem" as claimed. -/
theorem C5_update_checks_without_lock :
    stockChecksUnderLock updateQuantityActions = false ∧
    updateQuantityActions.count Action.acquireLock = 0 := by decide

/-- Claim C5 (amended) — UpdateQuantity on an item of the user's cart
with `new_qty ≥ 1` commits `quantity = new_qty` when it is within the
size's available stock, and aborts with `insufficientStock` (reporting
the available quantity, database unchanged, prior quantity kept) when it
exceeds it; however the stock check runs without holding any per-item
lock — the update path acquires no lock. -/
theorem C5_update_quantity_gate (user itemId newQty : Nat) (db : DB)
    (item : CartItem)
    (hfind : getObject user itemId db = some item) (hq : 1 ≤ newQty) :
    (stockOf db item.productSizeId < newQty →
      updateCartItem user itemId newQty db
        = (db, UpdateOutcome.insufficientStock (stockOf db item.productSizeId))) ∧
    (newQty ≤ stockOf db item.productSizeId →
      (updateCartItem user itemId newQty db).2
          = UpdateOutcome.updated { item with quantity := newQty } ∧
      getObject user itemId (updateCartItem user itemId newQty db).1
          = some { item with quantity := newQty }) ∧
    stockChecksUnderLock updateQuantityActions = false := by
  refine ⟨?_, ?_, by decide⟩
  · intro hlt
    have h0 : ¬ newQty < 1 := by omega
    have h0' : ¬ newQty = 0 := by omega
    simp [updateCartItem, hfind, h0, h0', hlt]
  · intro hle
    have h0 : ¬ newQty < 1 := by omega
    have h0' : ¬ newQty = 0 := by omega
    have h1 : ¬ stockOf db item.productSizeId < newQty := by omega
    constructor
    · simp [updateCartItem, hfind, h0, h0', h1]
    · have hstate : (updateCartItem user itemId newQty db).1
          = { db with cartItems := db.cartItems.map (fun i => if i.id == item.id then { item with quantity := newQty } else i) } := by
        simp [updateCartItem, hfind, h0, h0', h1]
      have hfind' : db.cartItems.find?
          (fun i => i.id == itemId && ownedBy db i user) = some item := hfind
      have htrue := List.find?_some hfind'
      rw [hstate]
      show (db.cartItems.map (fun i => if i.id == item.id then { item with quantity := newQty } else i)).find?
          (fun i => i.id == itemId && ownedBy db i user)
        = some { item with quantity := newQty }
      exact find?_map_replace hfind' htrue

/-- Claim C5 (witness for the amended theorem): on `rowDB` (stock 5,
item 4 at quantity 2), updating to 9 is rejected with the available
figure 5 and no mutation; updating to 5 commits quantity 5. -/
theorem C5_update_quantity_witness :
    updateCartItem 7 4 9 rowDB = (rowDB, UpdateOutcome.insufficientStock 5) ∧
    (updateCartItem 7 4 5 rowDB).2
      = UpdateOutcome.updated
          { id := 4, cartId := 3, productId := 1, productSizeId := 2, quantity := 5 } := by
  have h9 := C5_update_quantity_gate 7 4 9 rowDB
    { id := 4, cartId := 3, productId := 1, productSizeId := 2, quantity := 2 }
    (by decide) (by decide)
  have h5 := C5_update_quantity_gate 7 4 5 rowDB
    { id := 4, cartId := 3, productId := 1, productSizeId := 2, quantity := 2 }
    (by decide) (by decide)
  exact ⟨h9.1 (by decide), (h5.2.1 (by decide)).1⟩

/-- Claim C6 — an UpdateQuantity or RemoveItem request whose item id
belongs to a different user's cart is answered `notFound` (HTTP 404, the
same signal as for an absent item — no distinct forbidden status), and
the other user's item and the whole database are left unchanged. -/
theorem C6_cross_user_reported_not_found (db : DB) (u1 u2 itemId newQty : Nat)
    (item : CartItem) (hmem : item ∈ db.cartItems) (hid : item.id = itemId)
    (howner : ownedBy db item u2 = true) (hne : u1 ≠ u2)
    (hnodup : (db.cartItems.map CartItem.id).Nodup) :
    updateCartItem u1 itemId newQty db = (db, UpdateOutcome.notFound) ∧
    removeCartItem u1 itemId db = (db, RemoveOutcome.notFound) ∧
    updateStatus UpdateOutcome.notFound = 404 ∧
    removeStatus RemoveOutcome.notFound = 404 ∧
    item ∈ (updateCartItem u1 itemId newQty db).1.cartItems ∧
    item ∈ (removeCartItem u1 itemId db).1.cartItems := by
  have hobj : getObject u1 itemId db = none := by
    apply List.find?_eq_none.mpr
    intro x hx
    by_cases hxid : x.id = itemId
    · have hxitem : x = item :=
        List.inj_on_of_nodup_map hnodup hx hmem (hxid.trans hid.symm)
      subst hxitem
      have hnotowned : ownedBy db x u1 = false := by
        unfold ownedBy at howner ⊢
        cases hfc : db.carts.find? (fun c => c.id == x.cartId) with
        | none => rfl
        | some c =>
          rw [hfc] at howner
          have hcu : c.userId = u2 := by simpa using howner
          show (c.userId == u1) = false
          rw [hcu]
          exact beq_eq_false_iff_ne.mpr fun h => hne h.symm
      simp [hnotowned]
    · simp [hxid]
  refine ⟨by simp [updateCartItem, hobj], by simp [removeCartItem, hobj],
    rfl, rfl, ?_, ?_⟩
  · simpa [updateCartItem, hobj] using hmem
  · simpa [removeCartItem, hobj] using hmem

/-- Claim C6 (witness): user 9 targets item 4, which belongs to user 7's
cart in `rowDB`; both requests answer `notFound` and change nothing. -/
theorem C6_cross_user_witness :
    updateCartItem 9 4 1 rowDB = (rowDB, UpdateOutcome.notFound) ∧
    removeCartItem 9 4 rowDB = (rowDB, RemoveOutcome.notFound) := by
  have h := C6_cross_user_reported_not_found rowDB 9 7 4 1
    { id := 4, cartId := 3, productId := 1, productSizeId := 2, quantity := 2 }
    (by decide) (by decide) (by decide) (by decide) (by decide)
  exact ⟨h.1, h.2.1⟩

/-- Claim C7 — GetCart is a pure read that always succeeds: the database
comes back unchanged; a user without a cart gets the empty structure
(no items, zero total, zero count), not an error; a user with a cart
gets all its rows, a total equal to the sum over rows of quantity times
the product's current unit price (looked up in the `Product` table at
read time — the row stores no price), and the row count. -/
theorem C7_get_cart_pure_read (user : Nat) (db : DB) :
    (getCart user db).1 = db ∧
    (findCart db user = none →
      (getCart user db).2 = { items := [], cartTotal := 0, itemCount := 0 }) ∧
    (∀ c, findCart db user = some c →
      (getCart user db).2.items = cartItemsOf db c.id ∧
      (getCart user db).2.cartTotal
        = ((cartItemsOf db c.id).map (fun i => priceOf db i.productId * i.quantity)).sum ∧
      (getCart user db).2.itemCount = (cartItemsOf db c.id).length) := by
  refine ⟨?_, ?_, ?_⟩
  · cases h : findCart db user <;> simp [getCart, h]
  · intro h
    simp [getCart, h]
  · intro c hc
    refine ⟨by simp [getCart, hc], ?_, by simp [getCart, hc]⟩
    simp [getCart, hc, cartTotalOf, subtotal]

/-- Claim C7 (witness): at `rowDB`, user 7's cart totals
2 × 1000 = 2000 minor units and the database is unchanged. -/
theorem C7_get_cart_witness :
    (getCart 7 rowDB).1 = rowDB ∧
    (getCart 7 rowDB).2.cartTotal
      = ((cartItemsOf rowDB 3).map (fun i => priceOf rowDB i.productId * i.quantity)).sum := by
  have h := C7_get_cart_pure_read 7 rowDB
  exact ⟨h.1, (h.2.2 { id := 3, userId := 7 } (by decide)).2.1⟩

/-- Claim C10 — `item_count` is `obj.items.count()`: the number of
line-item rows of the user's cart, 0 when the user has no cart; it is
not the sum of the quantities, as the concrete cart `rowDB` (one row of
quantity 2) separates. -/
theorem C10_item_count_is_row_count (db : DB) (user : Nat) :
    (∀ c, findCart db user = some c →
      (getCart user db).2.itemCount = (cartItemsOf db c.id).length) ∧
    (findCart db user = none → (getCart user db).2.itemCount = 0) ∧
    ((getCart 7 rowDB).2.itemCount = 1 ∧
      ((getCart 7 rowDB).2.items.map CartItem.quantity).sum = 2) := by
  refine ⟨?_, ?_, by decide, by decide⟩
  · intro c hc
    simp [getCart, hc]
  · intro hc
    simp [getCart, hc]

/-- Claim C10 (witness): applied at `rowDB`, user 7, whose cart is cart
3 with one row. -/
theorem C10_item_count_witness :
    findCart rowDB 7 = some { id := 3, userId := 7 } ∧
    (getCart 7 rowDB).2.itemCount = (cartItemsOf rowDB 3).length :=
  ⟨by decide,
   (C10_item_count_is_row_count rowDB 7).1 { id := 3, userId := 7 } (by decide)⟩

/-! ## Invariant preservation, state shape by state shape -/

/-- Replacing one row's quantity (the shape shared by the merge branch
of `create` and the commit branch of `put`) preserves soundness. -/
theorem inv_replace_quantity {db : DB} (h : Inv db) {item : CartItem}
    (hmem : item ∈ db.cartItems) (q : Nat) :
    Inv { db with cartItems := db.cartItems.map (fun i => if i.id == item.id then { item with quantity := q } else i) } := by
  obtain ⟨h1, h2, h3, h4, h5, h6, h7, h8, h9, h10⟩ := h
  obtain ⟨hids, hkeys⟩ := maps_after_replace { item with quantity := q } h1 hmem rfl rfl
  refine ⟨?_, ?_, ?_, h4, h5, h6, h7, h8, h9, h10⟩
  · have h1' : ((db.cartItems.map (fun i => if i.id == item.id then { item with quantity := q } else i)).map CartItem.id).Nodup := by
      rw [hids]
      exact h1
    exact h1'
  · have h2' : ((db.cartItems.map (fun i => if i.id == item.id then { item with quantity := q } else i)).map itemKey).Nodup := by
      rw [hkeys]
      exact h2
    exact h2'
  · dsimp only
    intro i' hi'
    rcases List.mem_map.mp hi' with ⟨j, hj, rfl⟩
    by_cases hid : j.id = item.id
    · simpa [hid] using h3 item hmem
    · simpa [hid] using h3 j hj

/-- Dropping rows (the shape of `delete`) preserves soundness. -/
theorem inv_filter_items {db : DB} (h : Inv db) (q : CartItem → Bool) :
    Inv { db with cartItems := db.cartItems.filter q } := by
  obtain ⟨h1, h2, h3, h4, h5, h6, h7, h8, h9, h10⟩ := h
  refine ⟨nodup_map_filter CartItem.id q h1, nodup_map_filter itemKey q h2,
    ?_, h4, h5, h6, h7, h8, h9, h10⟩
  dsimp only
  intro i hi
  exact h3 i (List.mem_of_mem_filter hi)

/-- Dropping wishlist rows preserves soundness. -/
theorem inv_filter_wishItems {db : DB} (h : Inv db) (q : WishlistItem → Bool) :
    Inv { db with wishlistItems := db.wishlistItems.filter q } := by
  obtain ⟨h1, h2, h3, h4, h5, h6, h7, h8, h9, h10⟩ := h
  refine ⟨h1, h2, h3, h4, h5, nodup_map_filter WishlistItem.id q h6,
    nodup_map_filter wishKey q h7, ?_, h9, h10⟩
  dsimp only
  intro i hi
  exact h8 i (List.mem_of_mem_filter hi)

/-- Inserting a fresh row for a key that is absent from the existing
cart preserves soundness. -/
theorem inv_insert_item_existing_cart {db : DB} (h : Inv db) {c : Cart}
    (hcmem : c ∈ db.carts) {pid sid qty : Nat}
    (hni : findCartItemByKey db c.id pid sid = none) :
    Inv { db with cartItems := db.cartItems ++ [{ id := db.nextId, cartId := c.id, productId := pid, productSizeId := sid, quantity := qty }], nextId := db.nextId + 1 } := by
  obtain ⟨h1, h2, h3, h4, h5, h6, h7, h8, h9, h10⟩ := h
  refine ⟨?_, ?_, ?_, h4, ?_, h6, h7, ?_, h9, ?_⟩
  · exact nodup_map_append_single CartItem.id h1
      (fun x hx => Nat.ne_of_lt (h3 x hx).1)
  · apply nodup_map_append_single itemKey h2
    intro x hx hxeq
    simp only [itemKey, Prod.mk.injEq] at hxeq
    exact (List.find?_eq_none.mp hni x hx)
      (by simp [hxeq.1, hxeq.2.1, hxeq.2.2])
  · dsimp only
    intro i hi
    rcases List.mem_append.mp hi with hmem | hmem
    · have := h3 i hmem
      omega
    · rcases List.mem_singleton.mp hmem with rfl
      have := h5 c hcmem
      dsimp only
      omega
  · dsimp only
    intro x hx
    have := h5 x hx
    omega
  · dsimp only
    intro i hi
    have := h8 i hi
    omega
  · dsimp only
    intro w hw
    have := h10 w hw
    omega

/-- Lazily creating the cart and inserting its first row preserves
soundness. -/
theorem inv_insert_new_cart_and_item {db : DB} (h : Inv db) {user pid sid qty : Nat}
    (hc : findCart db user = none) :
    Inv { db with carts := db.carts ++ [{ id := db.nextId, userId := user }], cartItems := db.cartItems ++ [{ id := db.nextId + 1, cartId := db.nextId, productId := pid, productSizeId := sid, quantity := qty }], nextId := db.nextId + 2 } := by
  obtain ⟨h1, h2, h3, h4, h5, h6, h7, h8, h9, h10⟩ := h
  refine ⟨?_, ?_, ?_, ?_, ?_, h6, h7, ?_, h9, ?_⟩
  · apply nodup_map_append_single CartItem.id h1
    intro x hx
    have := (h3 x hx).1
    dsimp only
    omega
  · apply nodup_map_append_single itemKey h2
    intro x hx hxeq
    simp only [itemKey, Prod.mk.injEq] at hxeq
    have := (h3 x hx).2
    omega
  · dsimp only
    intro i hi
    rcases List.mem_append.mp hi with hmem | hmem
    · have := h3 i hmem
      omega
    · rcases List.mem_singleton.mp hmem with rfl
      dsimp only
      omega
  · apply nodup_map_append_single Cart.userId h4
    intro x hx hxe
    exact (List.find?_eq_none.mp hc x hx) (by simp [hxe])
  · dsimp only
    intro x hx
    rcases List.mem_append.mp hx with hmem | hmem
    · have := h5 x hmem
      omega
    · rcases List.mem_singleton.mp hmem with rfl
      dsimp only
      omega
  · dsimp only
    intro i hi
    have := h8 i hi
    omega
  · dsimp only
    intro w hw
    have := h10 w hw
    omega

/-- Inserting a wishlist row for a product absent from the existing
wishlist preserves soundness. -/
theorem inv_insert_wish_existing {db : DB} (h : Inv db) {w : Wishlist}
    (hwmem : w ∈ db.wishlists) {pid : Nat}
    (hnot : ∀ x ∈ db.wishlistItems, ¬ (x.wishlistId == w.id && x.productId == pid) = true) :
    Inv { db with wishlistItems := db.wishlistItems ++ [{ id := db.nextId, wishlistId := w.id, productId := pid }], nextId := db.nextId + 1 } := by
  obtain ⟨h1, h2, h3, h4, h5, h6, h7, h8, h9, h10⟩ := h
  refine ⟨h1, h2, ?_, h4, ?_, ?_, ?_, ?_, h9, ?_⟩
  · dsimp only
    intro i hi
    have := h3 i hi
    omega
  · dsimp only
    intro x hx
    have := h5 x hx
    omega
  · exact nodup_map_append_single WishlistItem.id h6
      (fun x hx => Nat.ne_of_lt (h8 x hx).1)
  · apply nodup_map_append_single wishKey h7
    intro x hx hxeq
    simp only [wishKey, Prod.mk.injEq] at hxeq
    exact hnot x hx (by simp [hxeq.1, hxeq.2])
  · dsimp only
    intro i hi
    rcases List.mem_append.mp hi with hmem | hmem
    · have := h8 i hmem
      omega
    · rcases List.mem_singleton.mp hmem with rfl
      have := h10 w hwmem
      dsimp only
      omega
  · dsimp only
    intro x hx
    have := h10 x hx
    omega

/-- Lazily creating the wishlist and inserting its first row preserves
soundness. -/
theorem inv_insert_new_wishlist {db : DB} (h : Inv db) {user pid : Nat}
    (hw : findWishlist db user = none) :
    Inv { db with wishlists := db.wishlists ++ [{ id := db.nextId, userId := user }], wishlistItems := db.wishlistItems ++ [{ id := db.nextId + 1, wishlistId := db.nextId, productId := pid }], nextId := db.nextId + 2 } := by
  obtain ⟨h1, h2, h3, h4, h5, h6, h7, h8, h9, h10⟩ := h
  refine ⟨h1, h2, ?_, h4, ?_, ?_, ?_, ?_, ?_, ?_⟩
  · dsimp only
    intro i hi
    have := h3 i hi
    omega
  · dsimp only
    intro x hx
    have := h5 x hx
    omega
  · apply nodup_map_append_single WishlistItem.id h6
    intro x hx
    have := (h8 x hx).1
    dsimp only
    omega
  · apply nodup_map_append_single wishKey h7
    intro x hx hxeq
    simp only [wishKey, Prod.mk.injEq] at hxeq
    have := (h8 x hx).2
    omega
  · dsimp only
    intro i hi
    rcases List.mem_append.mp hi with hmem | hmem
    · have := h8 i hmem
      omega
    · rcases List.mem_singleton.mp hmem with rfl
      dsimp only
      omega
  · apply nodup_map_append_single Wishlist.userId h9
    intro x hx hxe
    exact (List.find?_eq_none.mp hw x hx) (by simp [hxe])
  · dsimp only
    intro x hx
    rcases List.mem_append.mp hx with hmem | hmem
    · have := h10 x hmem
      omega
    · rcases List.mem_singleton.mp hmem with rfl
      dsimp only
      omega

/-! ## Invariant preservation, operation by operation -/

/-- AddItem preserves soundness. -/
theorem inv_addToCart {db : DB} (h : Inv db) (user pid sid qty : Nat) :
    Inv (addToCart user pid sid qty db).1 := by
  cases hv : addValidate user pid sid qty db with
  | error e =>
    simpa [addToCart, hv] using h
  | ok u =>
    have hfst : (addToCart user pid sid qty db).1 = (addCreate user pid sid qty db).1 := by
      simp [addToCart, hv]
    rw [hfst]
    cases hc : findCart db user with
    | some c =>
      cases hi : findCartItemByKey db c.id pid sid with
      | some item =>
        rw [addCreate_increment hc hi]
        exact inv_replace_quantity h (List.mem_of_find?_eq_some hi) _
      | none =>
        rw [addCreate_insert_existing_cart hc hi]
        exact inv_insert_item_existing_cart h (List.mem_of_find?_eq_some hc) hi
    | none =>
      have hni : findCartItemByKey db db.nextId pid sid = none := by
        apply List.find?_eq_none.mpr
        intro x hx
        have hxlt := (h.2.2.1 x hx).2
        simp [Nat.ne_of_lt hxlt]
      rw [addCreate_insert_new_cart hc hni]
      exact inv_insert_new_cart_and_item h hc

/-- UpdateQuantity preserves soundness. -/
theorem inv_updateCartItem {db : DB} (h : Inv db) (user itemId q : Nat) :
    Inv (updateCartItem user itemId q db).1 := by
  cases ho : getObject user itemId db with
  | none => simpa [updateCartItem, ho] using h
  | some item =>
    by_cases h0 : q < 1
    · have h0' : q = 0 := by omega
      simpa [updateCartItem, ho, h0'] using h
    · by_cases hlt : stockOf db item.productSizeId < q
      · have h0' : ¬ q = 0 := by omega
        simpa [updateCartItem, ho, h0, h0', hlt] using h
      · have h0' : ¬ q = 0 := by omega
        have hfst : (updateCartItem user itemId q db).1
            = { db with cartItems := db.cartItems.map (fun i => if i.id == item.id then { item with quantity := q } else i) } := by
          simp [updateCartItem, ho, h0, h0', hlt]
        rw [hfst]
        exact inv_replace_quantity h (List.mem_of_find?_eq_some ho) q

/-- RemoveItem preserves soundness. -/
theorem inv_removeCartItem {db : DB} (h : Inv db) (user itemId : Nat) :
    Inv (removeCartItem user itemId db).1 := by
  cases ho : getObject user itemId db with
  | none => simpa [removeCartItem, ho] using h
  | some item =>
    have hfst : (removeCartItem user itemId db).1
        = { db with cartItems := db.cartItems.filter (fun i => i.id != item.id) } := by
      simp [removeCartItem, ho]
    rw [hfst]
    exact inv_filter_items h _

/-- AddToWishlist preserves soundness: when validation passes, either
the fresh wishlist has no rows pointing at it, or the duplicate check of
the source's `validate_product_id` guarantees the key is new. -/
theorem inv_addToWishlist {db : DB} (h : Inv db) (user pid : Nat) :
    Inv (addToWishlist user pid db).1 := by
  cases hv : wishValidate user pid db with
  | error e => simpa [addToWishlist, hv] using h
  | ok u =>
    have hfst : (addToWishlist user pid db).1 = (wishCreate user pid db).1 := by
      simp [addToWishlist, hv]
    rw [hfst]
    cases hw : findWishlist db user with
    | some w =>
      have hcreate : wishCreate user pid db
          = ({ db with wishlistItems := db.wishlistItems ++ [{ id := db.nextId, wishlistId := w.id, productId := pid }], nextId := db.nextId + 1 },
             { id := db.nextId, wishlistId := w.id, productId := pid }) := by
        unfold wishCreate
        rw [hw]
      rw [hcreate]
      have hnot : ∀ x ∈ db.wishlistItems,
          ¬ (x.wishlistId == w.id && x.productId == pid) = true := by
        intro x hx hxp
        have hany : db.wishlistItems.any
            (fun i => i.wishlistId == w.id && i.productId == pid) = true :=
          List.any_eq_true.mpr ⟨x, hx, hxp⟩
        unfold wishValidate at hv
        rw [hw] at hv
        cases hp : findProduct db pid with
        | none =>
          rw [hp] at hv
          simp at hv
        | some prod =>
          rw [hp] at hv
          by_cases ha : prod.isActive = true
          · simp [ha, hany] at hv
          · have hfa : prod.isActive = false := by
              cases hb : prod.isActive
              · rfl
              · exact absurd hb ha
            simp [hfa] at hv
      exact inv_insert_wish_existing h (List.mem_of_find?_eq_some hw) hnot
    | none =>
      have hcreate : wishCreate user pid db
          = ({ db with wishlists := db.wishlists ++ [{ id := db.nextId, userId := user }], wishlistItems := db.wishlistItems ++ [{ id := db.nextId + 1, wishlistId := db.nextId, productId := pid }], nextId := db.nextId + 2 },
             { id := db.nextId + 1, wishlistId := db.nextId, productId := pid }) := by
        unfold wishCreate
        rw [hw]
      rw [hcreate]
      exact inv_insert_new_wishlist h hw

/-- RemoveWishlistItem preserves soundness. -/
theorem inv_removeWishlistItem {db : DB} (h : Inv db) (user itemId : Nat) :
    Inv (removeWishlistItem user itemId db).1 := by
  cases ho : getWishObject user itemId db with
  | none => simpa [removeWishlistItem, ho] using h
  | some item =>
    have hfst : (removeWishlistItem user itemId db).1
        = { db with wishlistItems := db.wishlistItems.filter (fun i => i.id != item.id) } := by
      simp [removeWishlistItem, ho]
    rw [hfst]
    exact inv_filter_wishItems h _

/-- Every single engine request preserves soundness. -/
theorem inv_applyOp {db : DB} (h : Inv db) (op : Op) : Inv (applyOp db op) := by
  cases op with
  | add user pid sid qty => exact inv_addToCart h user pid sid qty
  | update user itemId qty => exact inv_updateCartItem h user itemId qty
  | remove user itemId => exact inv_removeCartItem h user itemId
  | wishAdd user pid => exact inv_addToWishlist h user pid
  | wishRemove user itemId => exact inv_removeWishlistItem h user itemId

/-- Every sequence of engine requests preserves soundness. -/
theorem inv_run {db : DB} (h : Inv db) (ops : List Op) : Inv (run db ops) := by
  induction ops generalizing db with
  | nil => exact h
  | cons op rest ih => exact ih (inv_applyOp h op)

/-- Claim C8 — from any sound state, every sequence of engine
operations preserves the uniqueness invariant: no cart ever holds two
CartItems with the same (product, size) pair — the
(cart, product, size) keys stay duplicate-free — and no wishlist ever
holds two entries for the same product. -/
theorem C8_uniqueness_preserved (db : DB) (ops : List Op) (h : Inv db) :
    ((run db ops).cartItems.map itemKey).Nodup ∧
    ((run db ops).wishlistItems.map wishKey).Nodup :=
  ⟨(inv_run h ops).2.1, (inv_run h ops).2.2.2.2.2.2.1⟩

/-- Claim C8 (witness): from the sound state `sampleDB`, a sequence
mixing merges, a wishlist add and a removal keeps both key lists
duplicate-free. -/
theorem C8_uniqueness_witness :
    Inv sampleDB ∧
    ((run sampleDB [Op.add 7 1 2 2, Op.add 7 1 2 2, Op.wishAdd 7 1, Op.remove 7 4]).cartItems.map itemKey).Nodup ∧
    ((run sampleDB [Op.add 7 1 2 2, Op.add 7 1 2 2, Op.wishAdd 7 1, Op.remove 7 4]).wishlistItems.map wishKey).Nodup := by
  refine ⟨?_, ?_⟩
  · unfold Inv
    decide
  · exact C8_uniqueness_preserved sampleDB
      [Op.add 7 1 2 2, Op.add 7 1 2 2, Op.wishAdd 7 1, Op.remove 7 4]
      (by unfold Inv; decide)

/-! ## Quantity positivity (invariant I1) -/

/-- `create` never writes a quantity below 1 when the request's quantity
is at least 1 (the insert takes it verbatim, the merge adds it to a
positive value). -/
theorem qpos_addCreate {db : DB} (h : ∀ i ∈ db.cartItems, 1 ≤ i.quantity)
    {user pid sid qty : Nat} (hq : 1 ≤ qty) :
    ∀ i ∈ (addCreate user pid sid qty db).1.cartItems, 1 ≤ i.quantity := by
  cases hc : findCart db user with
  | some c =>
    cases hi : findCartItemByKey db c.id pid sid with
    | some item =>
      rw [addCreate_increment hc hi]
      dsimp only
      intro i hi'
      rcases List.mem_map.mp hi' with ⟨j, hj, rfl⟩
      by_cases hid : j.id = item.id
      · simp only [hid, beq_self_eq_true, if_true]
        omega
      · simp only [hid, beq_iff_eq, if_false, if_neg hid]
        exact h j hj
    | none =>
      rw [addCreate_insert_existing_cart hc hi]
      dsimp only
      intro i hi'
      rcases List.mem_append.mp hi' with hmem | hmem
      · exact h i hmem
      · rcases List.mem_singleton.mp hmem with rfl
        exact hq
  | none =>
    cases hi : findCartItemByKey db db.nextId pid sid with
    | some item =>
      rw [addCreate_new_cart_increment hc hi]
      dsimp only
      intro i hi'
      rcases List.mem_map.mp hi' with ⟨j, hj, rfl⟩
      by_cases hid : j.id = item.id
      · simp only [hid, beq_self_eq_true, if_true]
        omega
      · simp only [hid, beq_iff_eq, if_false, if_neg hid]
        exact h j hj
    | none =>
      rw [addCreate_insert_new_cart hc hi]
      dsimp only
      intro i hi'
      rcases List.mem_append.mp hi' with hmem | hmem
      · exact h i hmem
      · rcases List.mem_singleton.mp hmem with rfl
        exact hq

/-- Each single engine request keeps every stored quantity at least 1. -/
theorem qpos_applyOp {db : DB} (h : ∀ i ∈ db.cartItems, 1 ≤ i.quantity) (op : Op) :
    ∀ i ∈ (applyOp db op).cartItems, 1 ≤ i.quantity := by
  cases op with
  | add user pid sid qty =>
    show ∀ i ∈ (addToCart user pid sid qty db).1.cartItems, 1 ≤ i.quantity
    cases hv : addValidate user pid sid qty db with
    | error e => simpa [addToCart, hv] using h
    | ok u =>
      have hq : 1 ≤ qty := by
        by_contra hq
        unfold addValidate at hv
        rw [if_pos (by omega)] at hv
        simp at hv
      have hfst : (addToCart user pid sid qty db).1 = (addCreate user pid sid qty db).1 := by
        simp [addToCart, hv]
      rw [hfst]
      exact qpos_addCreate h hq
  | update user itemId q =>
    show ∀ i ∈ (updateCartItem user itemId q db).1.cartItems, 1 ≤ i.quantity
    cases ho : getObject user itemId db with
    | none => simpa [updateCartItem, ho] using h
    | some item =>
      by_cases h0 : q < 1
      · have h0' : q = 0 := by omega
        simpa [updateCartItem, ho, h0'] using h
      · by_cases hlt : stockOf db item.productSizeId < q
        · have h0' : ¬ q = 0 := by omega
          simpa [updateCartItem, ho, h0, h0', hlt] using h
        · have h0' : ¬ q = 0 := by omega
          have hfst : (updateCartItem user itemId q db).1
              = { db with cartItems := db.cartItems.map (fun i => if i.id == item.id then { item with quantity := q } else i) } := by
            simp [updateCartItem, ho, h0, h0', hlt]
          rw [hfst]
          dsimp only
          intro i hi'
          rcases List.mem_map.mp hi' with ⟨j, hj, rfl⟩
          by_cases hid : j.id = item.id
          · simp only [hid, beq_self_eq_true, if_true]
            omega
          · simp only [if_neg hid, beq_iff_eq]
            exact h j hj
  | remove user itemId =>
    show ∀ i ∈ (removeCartItem user itemId db).1.cartItems, 1 ≤ i.quantity
    cases ho : getObject user itemId db with
    | none => simpa [removeCartItem, ho] using h
    | some item =>
      have hfst : (removeCartItem user itemId db).1
          = { db with cartItems := db.cartItems.filter (fun i => i.id != item.id) } := by
        simp [removeCartItem, ho]
      rw [hfst]
      dsimp only
      intro i hi'
      exact h i (List.mem_of_mem_filter hi')
  | wishAdd user pid =>
    show ∀ i ∈ (addToWishlist user pid db).1.cartItems, 1 ≤ i.quantity
    have hsame : (addToWishlist user pid db).1.cartItems = db.cartItems := by
      cases hv : wishValidate user pid db with
      | error e => simp [addToWishlist, hv]
      | ok u =>
        cases hw : findWishlist db user <;>
          simp [addToWishlist, wishCreate, hv, hw]
    rw [hsame]
    exact h
  | wishRemove user itemId =>
    show ∀ i ∈ (removeWishlistItem user itemId db).1.cartItems, 1 ≤ i.quantity
    cases ho : getWishObject user itemId db with
    | none => simpa [removeWishlistItem, ho] using h
    | some item =>
      have hsame : (removeWishlistItem user itemId db).1.cartItems = db.cartItems := by
        simp [removeWishlistItem, ho]
      rw [hsame]
      exact h

/-- Every sequence of engine requests keeps quantities at least 1. -/
theorem qpos_run {db : DB} (h : ∀ i ∈ db.cartItems, 1 ≤ i.quantity) (ops : List Op) :
    ∀ i ∈ (run db ops).cartItems, 1 ≤ i.quantity := by
  induction ops generalizing db with
  | nil => exact h
  | cons op rest ih => exact ih (qpos_applyOp h op)

/-- Claim C9 — from any state whose rows all have quantity ≥ 1, every
sequence of engine operations preserves quantity ≥ 1 for every CartItem:
no operation ever persists a quantity of 0. A request that would set a
quantity to 0 — UpdateQuantity with 0, or AddItem of 0 — is rejected by
the `min_value=1` validators with the state entirely unchanged (and a
row disappears only through `delete`, never by storing 0). -/
theorem C9_quantity_at_least_one (db : DB) (ops : List Op)
    (h : ∀ i ∈ db.cartItems, 1 ≤ i.quantity) :
    (∀ i ∈ (run db ops).cartItems, 1 ≤ i.quantity) ∧
    (∀ u itemId d, (updateCartItem u itemId 0 d).1 = d) ∧
    (∀ u pid sid d, (addToCart u pid sid 0 d).1 = d) := by
  refine ⟨qpos_run h ops, ?_, ?_⟩
  · intro u itemId d
    cases ho : getObject u itemId d with
    | none => simp [updateCartItem, ho]
    | some item => simp [updateCartItem, ho]
  · intro u pid sid d
    simp [addToCart, addValidate]

/-- Claim C9 (witness): from `sampleDB` (no rows), an add, an update and
a merge leave every quantity at least 1. -/
theorem C9_quantity_witness :
    (∀ i ∈ sampleDB.cartItems, 1 ≤ i.quantity) ∧
    (∀ i ∈ (run sampleDB [Op.add 7 1 2 2, Op.update 7 4 5, Op.remove 7 4]).cartItems, 1 ≤ i.quantity) :=
  ⟨by decide,
   (C9_quantity_at_least_one sampleDB [Op.add 7 1 2 2, Op.update 7 4 5, Op.remove 7 4]
     (by decide)).1⟩

end ECom
